import Mathlib

/-
Verification model of the search-api service (`src/services/search-api/app`):
the cache-key builder (`cache/base.py`), the Postgres- and Redis-backed cache
stores (`cache/postgres.py`, `cache/redis.py`), the Google Places fan-out
client (`google_places.py`) and the cache-aside orchestration endpoint
(`main.py`).

Modelling conventions:
* Coordinates are exact rationals (`ℚ`); the binary floating-point
  representation of the Python source is not modelled.  `round(x, 3)` is
  round-half-to-even on the exact value.
* Timestamps and TTLs are integers (`ℤ`, seconds); `datetime.now()` is an
  explicit `now` parameter threaded through each operation.
* Awaited fallible collaborators (HTTP transport, database) are oracles
  passed in as explicit outcome values; an operation that can raise is
  embedded with an `Except`/sum result.
-/

/- ===================== cache/base.py ===================== -/

/-- Model of Python `round(q, 3)`, returned scaled by 1000 (the rounded
coordinate in thousandths).  Computed on `q.num`/`q.den` with integer
arithmetic: `f = ⌊1000q⌋`, remainder `r = 1000·q.num - f·den ∈ [0, den)`;
round down when the fractional part is below one half, up when above, and
to the even integer on an exact tie (Python ties-to-even). -/
def round3 (q : ℚ) : ℤ :=
  let n : ℤ := q.num * 1000
  let d : ℤ := (q.den : ℤ)
  let f : ℤ := n.fdiv d
  let r : ℤ := n - f * d
  if 2 * r < d then f else if d < 2 * r then f + 1 else if f % 2 = 0 then f else f + 1

/-- `⌊1000q⌋`: the integer part together with the first three decimal digits
of `q`.  Two coordinates agree in everything before the 4th decimal place
exactly when they have the same `milliFloor`. -/
def milliFloor (q : ℚ) : ℤ := (q.num * 1000).fdiv (q.den : ℤ)

/-- Fractional part (in thousandths, `0 ≤ fp < 1000`) of a 3-decimal value,
rendered the way Python `str` prints it: at least one digit, trailing zeros
stripped, leading zeros kept. -/
def milliFracString (fp : ℕ) : String :=
  if fp = 0 then "0"
  else if fp % 100 = 0 then toString (fp / 100)
  else if fp % 10 = 0 then
    (if fp / 10 < 10 then "0" else "") ++ toString (fp / 10)
  else
    (if fp < 10 then "00" else if fp < 100 then "0" else "") ++ toString fp

/-- Python `str` of the float `round(q, 3)`, e.g. `40.7128 ↦ "40.713"`,
`0 ↦ "0.0"`, `-74.006 ↦ "-74.006"`.  IEEE rounding preserves the sign, so a
negative coordinate whose magnitude rounds to zero yields the signed zero
`-0.0`, which CPython prints as `"-0.0"`: the minus sign is emitted when the
rounded value is negative, or zero with a negative input (`q.num < 0`).
(A literal `-0.0` input is not representable in `ℚ`, which has a single
zero; every nonzero input carries its sign in `q.num`.) -/
def renderCoord (q : ℚ) : String :=
  (if round3 q < 0 ∨ (round3 q = 0 ∧ q.num < 0) then "-" else "") ++
    toString ((round3 q).natAbs / 1000) ++ "." ++
    milliFracString ((round3 q).natAbs % 1000)

/-- `generate_cache_key` from `cache/base.py`: rounds the coordinates to three
decimals, sorts the types lexicographically and joins everything with `:`
into `"nearby:{lat}:{lng}:{radius}:{types}"`. -/
def generate_cache_key (lat lng : ℚ) (radius : ℤ) (types : List String) : String :=
  let types_sorted := String.intercalate "," (List.insertionSort (fun a b => a ≤ b) types)
  "nearby:" ++ renderCoord lat ++ ":" ++ renderCoord lng ++ ":" ++
    toString radius ++ ":" ++ types_sorted

/- ===================== cache/postgres.py ===================== -/

/-- The `nearby_query_cache` table: rows `(cache_key, restaurant_place_ids,
expires_at)`.  `cache_key` is the primary key, so at most one row per key in
any state the store itself produces. -/
abbrev CacheState := List (String × List String × ℤ)

/-- `PostgresCache.get`: `SELECT .. WHERE cache_key = key AND expires_at >
now`, returning the stored place ids of the matching row, `none` on miss or
logical expiry. -/
def PostgresCache.get (st : CacheState) (now : ℤ) (key : String) : Option (List String) :=
  match st.find? (fun e => e.1 == key && decide (now < e.2.2)) with
  | some e => some e.2.1
  | none => none

/-- `PostgresCache.set`: `INSERT .. ON CONFLICT (cache_key) DO UPDATE`,
writing `expires_at = now + ttl_seconds`; overwrites the row for `key` if one
exists, inserts otherwise. -/
def PostgresCache.set (st : CacheState) (now : ℤ) (key : String)
    (place_ids : List String) (ttl_seconds : ℤ) : CacheState :=
  let expires_at := now + ttl_seconds
  if st.any (fun e => e.1 == key) then
    st.map (fun e => if e.1 == key then (key, place_ids, expires_at) else e)
  else
    st ++ [(key, place_ids, expires_at)]

/-- `PostgresCache.delete`: `DELETE .. WHERE cache_key = key`, reporting
whether any row was removed. -/
def PostgresCache.delete (st : CacheState) (key : String) : CacheState × Bool :=
  (st.filter (fun e => e.1 != key), st.any (fun e => e.1 == key))

/-- `PostgresCache.cleanup_expired`: `DELETE .. WHERE expires_at <= now`,
returning the number of rows removed. -/
def PostgresCache.cleanup_expired (st : CacheState) (now : ℤ) : CacheState × ℕ :=
  ((st.filter (fun e => decide (now < e.2.2))),
   (st.filter (fun e => decide (e.2.2 ≤ now))).length)

/- ===================== cache/redis.py ===================== -/

/-- Result of one awaited Redis client call: either the returned value or a
raised exception (connection error, timeout, ...). -/
inductive RedisOp (α : Type) where
  | ok : α → RedisOp α
  | err : RedisOp α
deriving DecidableEq, Repr

/-- Behaviour of the Redis transport for one cache operation: what each
underlying client call would return.  `getReply` carries the stored ids
already JSON-decoded (`none` when the key is absent/empty), `delReply` the
number of keys `DEL` removed. -/
structure RedisBackend where
  getReply : RedisOp (Option (List String))
  setReply : RedisOp Unit
  delReply : RedisOp ℕ
deriving DecidableEq, Repr

/-- `RedisCache.get`: returns the decoded ids, and degrades any raised
backend error to a cache miss (`except Exception: ... return None`). -/
def RedisCache.get (b : RedisBackend) : Option (List String) :=
  match b.getReply with
  | .ok data => data
  | .err => none

/-- `RedisCache.set` (`SETEX`): a raised backend error is logged and
swallowed, so the call always completes normally. -/
def RedisCache.set (b : RedisBackend) : Unit :=
  match b.setReply with
  | .ok u => u
  | .err => ()

/-- `RedisCache.delete`: true iff `DEL` removed at least one key; a raised
backend error degrades to `false`. -/
def RedisCache.delete (b : RedisBackend) : Bool :=
  match b.delReply with
  | .ok n => decide (n > 0)
  | .err => false

/-- `RedisCache.cleanup_expired`: native TTL, always a no-op returning 0. -/
def RedisCache.cleanup_expired : ℕ := 0

/- ===================== google_places.py ===================== -/

/-- One raw place dict from a Google Places response.  `id` is
`place.get("id")` (`none` when the key is missing); `payload` stands for the
rest of the dict, so distinct raw records can share an id. -/
structure Place where
  id : Option String
  payload : ℕ
deriving DecidableEq, Repr

/-- One step of the dedup loop in `search_nearby`:
`place_id = place.get("id"); if place_id and place_id not in all_places:
all_places[place_id] = place`.  `all_places` is the insertion-ordered dict,
modelled as an association list appended at the end. -/
def insertPlace (all_places : List (String × Place)) (place : Place) :
    List (String × Place) :=
  match place.id with
  | none => all_places
  | some place_id =>
      if place_id ≠ "" ∧ all_places.lookup place_id = none then
        all_places ++ [(place_id, place)]
      else all_places

/-- The full merge loop over the settled group results (`for places in
results: for place in places: ...`). -/
def mergeGroups (results : List (List Place)) : List (String × Place) :=
  results.foldl (fun acc places => places.foldl insertPlace acc) []

/-- Outcome of one group request inside `fetch_group`: the parsed `places`
list on success, or any raised exception (HTTP error, timeout, bad JSON). -/
inductive GroupResult where
  | ok : List Place → GroupResult
  | err : GroupResult
deriving DecidableEq, Repr

/-- `fetch_group`: returns the response's `places` on success and `[]` when
anything was raised (`except Exception: ... return []`) — a failed group
contributes zero records and never propagates. -/
def fetch_group : GroupResult → List Place
  | .ok places => places
  | .err => []

/-- The metadata dict returned by `search_nearby`. -/
structure SearchMeta where
  requests_made : ℕ
  max_requests : ℕ
  raw_places : ℕ
  unique_places : ℕ
  truncated : Bool
deriving DecidableEq, Repr

/-- `raw_places_count`: total records received across groups, pre-dedup. -/
def rawCount (results : List (List Place)) : ℕ := (results.map List.length).sum

/-- The default cuisine/establishment type groups of `search_nearby`. -/
def DEFAULT_TYPE_GROUPS : List (List String) :=
  [["restaurant"],
   ["american_restaurant", "hamburger_restaurant", "steak_house"],
   ["italian_restaurant", "pizza_restaurant"],
   ["mexican_restaurant", "spanish_restaurant"],
   ["chinese_restaurant", "japanese_restaurant", "sushi_restaurant"],
   ["korean_restaurant", "thai_restaurant", "vietnamese_restaurant"],
   ["indian_restaurant", "mediterranean_restaurant", "greek_restaurant"],
   ["fast_food_restaurant", "sandwich_shop", "meal_takeaway"],
   ["cafe", "coffee_shop", "bakery"],
   ["ice_cream_shop", "bar", "juice_shop"],
   ["vegan_restaurant", "vegetarian_restaurant"],
   ["middle_eastern_restaurant", "french_restaurant"],
   ["seafood_restaurant"],
   ["barbecue_restaurant", "ramen_restaurant"],
   ["breakfast_restaurant", "brunch_restaurant"]]

/-- Group selection in `search_nearby`: explicit caller types give a single
request limited to 10 types, otherwise the default groups capped at 15. -/
def select_type_groups (included_types : Option (List String)) : List (List String) :=
  match included_types with
  | some ts => if ts.length > 0 then [ts.take 10] else DEFAULT_TYPE_GROUPS.take 15
  | none => DEFAULT_TYPE_GROUPS.take 15

/-- The pure tail of `GooglePlacesClient.search_nearby`, applied to the
settled per-group outcomes delivered by `asyncio.gather` (in group
submission order): run each group's `fetch_group` result, merge with dedup
by place id, truncate to `max_results`, and assemble the metadata dict. -/
def search_nearby (outcomes : List GroupResult) (max_results : ℕ) :
    List Place × SearchMeta :=
  let results := outcomes.map fetch_group
  let all_places := mergeGroups results
  let raw_places_count := rawCount results
  let result_list := all_places.map Prod.snd
  let truncated := decide (result_list.length > max_results)
  let final_result := result_list.take max_results
  (final_result,
   { requests_made := outcomes.length, max_requests := outcomes.length,
     raw_places := raw_places_count, unique_places := all_places.length,
     truncated := truncated })

/-- Completion of the concurrently scheduled group tasks: tasks finish in
`order` (a permutation of the submission indices), and each finished task
deposits its index together with its settled outcome. -/
def completeInto (responses : List GroupResult) (order : List ℕ) :
    List (ℕ × GroupResult) :=
  order.filterMap (fun i => (responses.get? i).map (fun r => (i, r)))

/-- `asyncio.gather`: wait for every task to settle, then hand back the
settled outcomes re-ordered by submission index, whatever the completion
order was. -/
def gatherJoin (responses : List GroupResult) (order : List ℕ) : List GroupResult :=
  let table := completeInto responses order
  (List.range responses.length).filterMap (fun i => table.lookup i)

/-- `parse_google_place` restricted to the field the engine's control flow
consumes: the provider id (`place.get("id")`, never `none`/empty for a place
that survived the merge).  The remaining canonical fields (name, address,
coordinates, rating, price tier, payload blob) take no part in any claim. -/
structure RestaurantRow where
  google_place_id : String
deriving DecidableEq, Repr

/-- `parse_google_place` as a row constructor (see `RestaurantRow`). -/
def parse_google_place (place : Place) : RestaurantRow :=
  { google_place_id := place.id.getD "" }

/- ===================== db.py ===================== -/

/-- `upsert_restaurants`: one `INSERT .. ON CONFLICT DO UPDATE .. RETURNING`
statement for the whole batch — atomic, so it either returns every upserted
row or raises.  `store_ok` is the database-health oracle for this call. -/
def upsert_restaurants (store_ok : Bool) (restaurants_data : List RestaurantRow) :
    Except Unit (List RestaurantRow) :=
  if restaurants_data.isEmpty then .ok []
  else if store_ok then .ok restaurants_data
  else .error ()

/-- `get_restaurants_by_place_ids`: `SELECT .. WHERE google_place_id IN ids`;
ids with no matching row are simply absent from the result. -/
def get_restaurants_by_place_ids (store : List RestaurantRow)
    (place_ids : List String) : List RestaurantRow :=
  if place_ids.isEmpty then []
  else store.filter (fun r => place_ids.contains r.google_place_id)

/- ===================== main.py ===================== -/

/-- The validated body of `POST /api/v1/nearby` (`location` flattened). -/
structure NearbySearchRequest where
  lat : ℚ
  lng : ℚ
  radius : ℤ
  included_types : Option (List String)
  max_results : ℕ
deriving DecidableEq

/-- `NearbySearchResponse`; the five optional observability fields
(`requests_made` .. `truncated`) are bundled as `meta` — `none` on a cache
hit, populated from `places_meta` otherwise. -/
structure NearbySearchResponse where
  restaurants : List RestaurantRow
  count : ℕ
  cached : Bool
  cache_key : String
  meta : Option SearchMeta
deriving DecidableEq, Repr

/-- The two explicit failure conditions `search_nearby_restaurants` can
signal: `HTTPException(503, "Restaurant search temporarily unavailable")`
and `HTTPException(500, "Failed to process search results: ...")`. -/
inductive ApiError where
  | providerUnavailable
  | storageError
deriving DecidableEq, Repr

/-- What the awaited `places_client.search_nearby(...)` call does: `raises`
when the coroutine itself raises (transport-level fatal error before or
outside the per-group handlers), or the list of settled per-group outcomes
(each group's own failure already absorbed by `fetch_group`). -/
inductive FetchOutcome where
  | raises : FetchOutcome
  | groups : List GroupResult → FetchOutcome
deriving DecidableEq

def exceptDecEq {ε α : Type} [DecidableEq ε] [DecidableEq α] :
    DecidableEq (Except ε α) := fun a b =>
  match a, b with
  | .ok x, .ok y =>
    match decEq x y with
    | .isTrue h => .isTrue (by rw [h])
    | .isFalse h => .isFalse (fun hh => h (Except.ok.inj hh))
  | .error x, .error y =>
    match decEq x y with
    | .isTrue h => .isTrue (by rw [h])
    | .isFalse h => .isFalse (fun hh => h (Except.error.inj hh))
  | .ok _, .error _ => .isFalse (fun hh => Except.noConfusion hh)
  | .error _, .ok _ => .isFalse (fun hh => Except.noConfusion hh)

instance {ε α : Type} [DecidableEq ε] [DecidableEq α] : DecidableEq (Except ε α) :=
  exceptDecEq

/-- Everything one request run produces: the HTTP-level result, the cache
state afterwards, and the side-effecting calls that were issued (`cache.set`
writes as `(key, ids)`, attempted upsert batches). -/
structure OrchResult where
  response : Except ApiError NearbySearchResponse
  cacheAfter : CacheState
  cacheWrites : List (String × List String)
  upsertBatches : List (List RestaurantRow)
deriving DecidableEq

/-- The cache key computed at the top of `search_nearby_restaurants`:
`generate_cache_key(lat, lng, radius, included_types or [])`. -/
def request_cache_key (request : NearbySearchRequest) : String :=
  generate_cache_key request.lat request.lng request.radius
    (request.included_types.getD [])

/-- `search_nearby_restaurants` (`POST /api/v1/nearby`) with its awaited
collaborators made explicit: the Postgres-backed cache state `cache` at time
`now`, the canonical `store` rows used to resolve a hit, the provider call
behaviour `fetch`, and the upsert-store health `store_ok`.  Flow: cache
check (unless `skip_cache`), provider fan-out on miss (a raising fetch
becomes the 503 condition), empty results returned uncached, otherwise
parse → batch upsert (failure becomes the 500 condition) → cache write with
`ttl_seconds` → respond. -/
def search_nearby_restaurants (request : NearbySearchRequest) (skip_cache : Bool)
    (cache : CacheState) (now : ℤ) (ttl_seconds : ℤ)
    (store : List RestaurantRow) (fetch : FetchOutcome) (store_ok : Bool) :
    OrchResult :=
  let cache_key := request_cache_key request
  let cached_place_ids := if skip_cache then none else PostgresCache.get cache now cache_key
  match cached_place_ids with
  | some place_ids =>
      let restaurants := get_restaurants_by_place_ids store place_ids
      { response := .ok { restaurants := restaurants, count := restaurants.length,
                          cached := true, cache_key := cache_key, meta := none },
        cacheAfter := cache, cacheWrites := [], upsertBatches := [] }
  | none =>
      match fetch with
      | .raises =>
          { response := .error .providerUnavailable,
            cacheAfter := cache, cacheWrites := [], upsertBatches := [] }
      | .groups outcomes =>
          let fetched := search_nearby outcomes request.max_results
          let places := fetched.1
          let places_meta := fetched.2
          if places.isEmpty then
            { response := .ok { restaurants := [], count := 0, cached := false,
                                cache_key := cache_key, meta := some places_meta },
              cacheAfter := cache, cacheWrites := [], upsertBatches := [] }
          else
            let restaurants_data := places.map parse_google_place
            match upsert_restaurants store_ok restaurants_data with
            | .error _ =>
                { response := .error .storageError,
                  cacheAfter := cache, cacheWrites := [],
                  upsertBatches := [restaurants_data] }
            | .ok restaurants =>
                let place_ids := restaurants.map (fun r => r.google_place_id)
                { response := .ok { restaurants := restaurants,
                                    count := restaurants.length, cached := false,
                                    cache_key := cache_key, meta := some places_meta },
                  cacheAfter := PostgresCache.set cache now cache_key place_ids ttl_seconds,
                  cacheWrites := [(cache_key, place_ids)],
                  upsertBatches := [restaurants_data] }

/- ===================== helper lemmas ===================== -/

theorem lookup_cons_eq {β : Type} (e : String × β) (l : List (String × β)) (a : String) :
    (e :: l).lookup a = if a == e.1 then some e.2 else l.lookup a := by
  cases e with
  | mk k v => by_cases h : a == k <;> simp [List.lookup, h]

theorem lookup_append_of_some {β : Type} {l₁ : List (String × β)} (l₂ : List (String × β))
    {a : String} {v : β} (h : l₁.lookup a = some v) : (l₁ ++ l₂).lookup a = some v := by
  induction l₁ with
  | nil => exact absurd h (by simp [List.lookup])
  | cons e t ih =>
      rw [lookup_cons_eq] at h
      rw [List.cons_append, lookup_cons_eq]
      by_cases he : a == e.1
      · rw [if_pos he] at h; rw [if_pos he]; exact h
      · rw [if_neg he] at h; rw [if_neg he]; exact ih h

theorem lookup_append_of_none {β : Type} {l₁ : List (String × β)} (l₂ : List (String × β))
    {a : String} (h : l₁.lookup a = none) : (l₁ ++ l₂).lookup a = l₂.lookup a := by
  induction l₁ with
  | nil => simp
  | cons e t ih =>
      rw [lookup_cons_eq] at h
      rw [List.cons_append, lookup_cons_eq]
      by_cases he : a == e.1
      · rw [if_pos he] at h; exact absurd h (by simp)
      · rw [if_neg he] at h; rw [if_neg he]; exact ih h

theorem lookup_none_iff {β : Type} {l : List (String × β)} {a : String} :
    l.lookup a = none ↔ a ∉ l.map Prod.fst := by
  induction l with
  | nil => simp [List.lookup]
  | cons e t ih =>
      rw [lookup_cons_eq]
      by_cases he : a == e.1
      · have ha : a = e.1 := eq_of_beq he
        rw [if_pos he]
        constructor
        · intro hh; exact absurd hh (by simp)
        · intro hh; exact absurd (by simp [ha]) hh
      · have ha : a ≠ e.1 := fun hh => he (by simp [hh])
        rw [if_neg he, ih]
        simp [ha]

theorem insertPlace_of_id_none {acc : List (String × Place)} {p : Place}
    (h : p.id = none) : insertPlace acc p = acc := by
  unfold insertPlace; rw [h]

theorem insertPlace_of_id_some {acc : List (String × Place)} {p : Place} {q : String}
    (h : p.id = some q) :
    insertPlace acc p =
      if q ≠ "" ∧ acc.lookup q = none then acc ++ [(q, p)] else acc := by
  unfold insertPlace; rw [h]

theorem insertPlace_lookup_some {acc : List (String × Place)} {pid : String} {v : Place}
    (p : Place) (h : acc.lookup pid = some v) : (insertPlace acc p).lookup pid = some v := by
  cases hid : p.id with
  | none => rw [insertPlace_of_id_none hid]; exact h
  | some q =>
      rw [insertPlace_of_id_some hid]
      by_cases hc : q ≠ "" ∧ acc.lookup q = none
      · rw [if_pos hc]; exact lookup_append_of_some _ h
      · rw [if_neg hc]; exact h

theorem foldl_insertPlace_lookup_some {pid : String} {v : Place} :
    ∀ (ps : List Place) (acc : List (String × Place)), acc.lookup pid = some v →
      (ps.foldl insertPlace acc).lookup pid = some v := by
  intro ps
  induction ps with
  | nil => intro acc h; exact h
  | cons p ps ih =>
      intro acc h
      exact ih (insertPlace acc p) (insertPlace_lookup_some p h)

theorem foldl_insertPlace_lookup_none {pid : String} (hpid : pid ≠ "") :
    ∀ (ps : List Place) (acc : List (String × Place)), acc.lookup pid = none →
      (ps.foldl insertPlace acc).lookup pid = ps.find? (fun r => r.id == some pid) := by
  intro ps
  induction ps with
  | nil => intro acc h; simpa using h
  | cons p ps ih =>
      intro acc h
      rw [List.foldl_cons]
      cases hid : p.id with
      | none =>
          rw [List.find?_cons_of_neg (p := fun r : Place => r.id == some pid) _ (by simp [hid]),
            insertPlace_of_id_none hid]
          exact ih acc h
      | some q =>
          by_cases hq : q = pid
          · subst hq
            rw [List.find?_cons_of_pos (p := fun r : Place => r.id == some q) _ (by simp [hid]),
              insertPlace_of_id_some hid, if_pos ⟨hpid, h⟩]
            refine foldl_insertPlace_lookup_some ps _ ?_
            rw [lookup_append_of_none _ h, lookup_cons_eq]
            simp
          · rw [List.find?_cons_of_neg (p := fun r : Place => r.id == some pid) _ (by simp [hid, hq]),
              insertPlace_of_id_some hid]
            by_cases hc : q ≠ "" ∧ acc.lookup q = none
            · rw [if_pos hc]
              refine ih _ ?_
              rw [lookup_append_of_none _ h, lookup_cons_eq]
              have hbq : (pid == q) = false := by
                cases hbe : pid == q
                · rfl
                · exact absurd (eq_of_beq hbe).symm hq
              rw [hbq]
              simp [List.lookup]
            · rw [if_neg hc]; exact ih acc h

theorem insertPlace_keys_nodup {acc : List (String × Place)} (p : Place)
    (h : (acc.map Prod.fst).Nodup) : ((insertPlace acc p).map Prod.fst).Nodup := by
  cases hid : p.id with
  | none => rw [insertPlace_of_id_none hid]; exact h
  | some q =>
      rw [insertPlace_of_id_some hid]
      by_cases hc : q ≠ "" ∧ acc.lookup q = none
      · rw [if_pos hc]
        have hq : q ∉ acc.map Prod.fst := lookup_none_iff.mp hc.2
        simp [List.nodup_append, h, hq]
      · rw [if_neg hc]; exact h

theorem foldl_insertPlace_keys_nodup :
    ∀ (ps : List Place) (acc : List (String × Place)),
      (acc.map Prod.fst).Nodup → ((ps.foldl insertPlace acc).map Prod.fst).Nodup := by
  intro ps
  induction ps with
  | nil => intro acc h; exact h
  | cons p ps ih => intro acc h; exact ih _ (insertPlace_keys_nodup p h)

theorem mergeGroups_eq_foldl_flatten (results : List (List Place)) :
    mergeGroups results = (results.flatten).foldl insertPlace [] := by
  unfold mergeGroups
  suffices h : ∀ (L : List (List Place)) (acc : List (String × Place)),
      L.foldl (fun acc places => places.foldl insertPlace acc) acc =
        (L.flatten).foldl insertPlace acc from h results []
  intro L
  induction L with
  | nil => intro acc; rfl
  | cons g L ih => intro acc; rw [List.foldl_cons, List.flatten_cons, List.foldl_append, ih]

/- ===================== claims ===================== -/

/-- Claim C3: feeding the merge a set of group results whose raw records
contain overlapping provider ids yields a sequence in which each provider id
occurs exactly once, keeping the first-seen record for a duplicated id
(later duplicates silently dropped), in insertion order of the merge; the
returned sequence is exactly that merge order (up to the `max_results`
prefix). -/
theorem dedup_first_seen (outcomes : List GroupResult) (max_results : ℕ) (pid : String)
    (hpid : pid ≠ "")
    (hmem : ∃ o ∈ outcomes, ∃ p ∈ fetch_group o, p.id = some pid) :
    (search_nearby outcomes max_results).1 =
      ((mergeGroups (outcomes.map fetch_group)).map Prod.snd).take max_results ∧
    ((mergeGroups (outcomes.map fetch_group)).map Prod.fst).Nodup ∧
    ((mergeGroups (outcomes.map fetch_group)).map Prod.fst).count pid = 1 ∧
    (mergeGroups (outcomes.map fetch_group)).lookup pid =
      ((outcomes.map fetch_group).flatten).find? (fun r => r.id == some pid) := by
  have hflat := mergeGroups_eq_foldl_flatten (outcomes.map fetch_group)
  have hlookup : (mergeGroups (outcomes.map fetch_group)).lookup pid =
      ((outcomes.map fetch_group).flatten).find? (fun r => r.id == some pid) := by
    rw [hflat]
    exact foldl_insertPlace_lookup_none hpid _ [] (by simp [List.lookup])
  have hnodup : ((mergeGroups (outcomes.map fetch_group)).map Prod.fst).Nodup := by
    rw [hflat]; exact foldl_insertPlace_keys_nodup _ [] (by simp)
  refine ⟨rfl, hnodup, ?_, hlookup⟩
  obtain ⟨o, ho, p, hp, hpo⟩ := hmem
  have hsome : (((outcomes.map fetch_group).flatten).find?
      (fun r : Place => r.id == some pid)).isSome :=
    List.find?_isSome.mpr
      ⟨p, List.mem_flatten.mpr ⟨fetch_group o, List.mem_map_of_mem _ ho, hp⟩, by simp [hpo]⟩
  have hmemk : pid ∈ (mergeGroups (outcomes.map fetch_group)).map Prod.fst := by
    by_contra hnk
    have hnone := lookup_none_iff.mpr hnk
    rw [hlookup] at hnone
    rw [hnone] at hsome
    simp at hsome
  exact List.count_eq_one_of_mem hnodup hmemk

theorem dedup_first_seen_witness :
    ((("a" : String) ≠ "") ∧
      (∃ o ∈ [GroupResult.ok [⟨some "a", 1⟩, ⟨some "b", 2⟩], GroupResult.ok [⟨some "a", 3⟩]],
        ∃ p ∈ fetch_group o, p.id = some "a")) ∧
    ((search_nearby [GroupResult.ok [⟨some "a", 1⟩, ⟨some "b", 2⟩],
          GroupResult.ok [⟨some "a", 3⟩]] 10).1 =
      ((mergeGroups ([GroupResult.ok [⟨some "a", 1⟩, ⟨some "b", 2⟩],
          GroupResult.ok [⟨some "a", 3⟩]].map fetch_group)).map Prod.snd).take 10 ∧
      ((mergeGroups ([GroupResult.ok [⟨some "a", 1⟩, ⟨some "b", 2⟩],
          GroupResult.ok [⟨some "a", 3⟩]].map fetch_group)).map Prod.fst).Nodup ∧
      ((mergeGroups ([GroupResult.ok [⟨some "a", 1⟩, ⟨some "b", 2⟩],
          GroupResult.ok [⟨some "a", 3⟩]].map fetch_group)).map Prod.fst).count "a" = 1 ∧
      (mergeGroups ([GroupResult.ok [⟨some "a", 1⟩, ⟨some "b", 2⟩],
          GroupResult.ok [⟨some "a", 3⟩]].map fetch_group)).lookup "a" =
        (([GroupResult.ok [⟨some "a", 1⟩, ⟨some "b", 2⟩],
          GroupResult.ok [⟨some "a", 3⟩]].map fetch_group).flatten).find?
          (fun r => r.id == some "a")) :=
  ⟨⟨by decide, by decide⟩, dedup_first_seen _ 10 "a" (by decide) (by decide)⟩

/-- Claim C4: whenever the deduplicated record count exceeds `max_results`
the returned sequence is exactly the first `max_results` records in merge
order and the metadata reports `truncated = true`; otherwise the full
deduplicated sequence is returned with `truncated = false`. -/
theorem truncation_marks (outcomes : List GroupResult) (max_results : ℕ) :
    (((mergeGroups (outcomes.map fetch_group)).map Prod.snd).length > max_results →
      (search_nearby outcomes max_results).1 =
        ((mergeGroups (outcomes.map fetch_group)).map Prod.snd).take max_results ∧
      (search_nearby outcomes max_results).2.truncated = true) ∧
    (((mergeGroups (outcomes.map fetch_group)).map Prod.snd).length ≤ max_results →
      (search_nearby outcomes max_results).1 =
        (mergeGroups (outcomes.map fetch_group)).map Prod.snd ∧
      (search_nearby outcomes max_results).2.truncated = false) := by
  constructor
  · intro h
    have h' : max_results < (mergeGroups (outcomes.map fetch_group)).length := by
      rw [List.length_map] at h; exact h
    exact ⟨rfl, by simp [search_nearby, h']⟩
  · intro h
    have h' : (mergeGroups (outcomes.map fetch_group)).length ≤ max_results := by
      rw [List.length_map] at h; exact h
    constructor
    · show ((mergeGroups (outcomes.map fetch_group)).map Prod.snd).take max_results = _
      exact List.take_of_length_le h
    · simp [search_nearby]
      omega

theorem truncation_marks_witness :
    (((mergeGroups ([GroupResult.ok [⟨some "a", 1⟩, ⟨some "b", 2⟩]].map
        fetch_group)).map Prod.snd).length > 1) ∧
    ((search_nearby [GroupResult.ok [⟨some "a", 1⟩, ⟨some "b", 2⟩]] 1).1 =
      ((mergeGroups ([GroupResult.ok [⟨some "a", 1⟩, ⟨some "b", 2⟩]].map
        fetch_group)).map Prod.snd).take 1 ∧
      (search_nearby [GroupResult.ok [⟨some "a", 1⟩, ⟨some "b", 2⟩]] 1).2.truncated = true) :=
  ⟨by decide, (truncation_marks [GroupResult.ok [⟨some "a", 1⟩, ⟨some "b", 2⟩]] 1).1 (by decide)⟩

/-- Claim C8: `PostgresCache.get` never returns a logically expired entry
even if it is still physically present — anything it returns comes from a
row for the key whose `expires_at` is strictly in the future — and a `set`
with `ttl = 0` followed by any positive clock advance yields `get = none`. -/
theorem cache_get_never_expired (st : CacheState) (now : ℤ) (key : String) :
    (∀ ids, PostgresCache.get st now key = some ids →
      ∃ e ∈ st, e.1 = key ∧ e.2.1 = ids ∧ now < e.2.2) ∧
    (∀ (t0 t1 : ℤ) (ids : List String), t0 < t1 →
      PostgresCache.get (PostgresCache.set st t0 key ids 0) t1 key = none) := by
  constructor
  · intro ids h
    unfold PostgresCache.get at h
    cases hf : st.find? (fun e => e.1 == key && decide (now < e.2.2)) with
    | none => rw [hf] at h; exact absurd h (by simp)
    | some e =>
        rw [hf] at h
        have hmem := List.mem_of_find?_eq_some hf
        have hpred := List.find?_some hf
        rw [Bool.and_eq_true] at hpred
        refine ⟨e, hmem, eq_of_beq hpred.1, ?_, of_decide_eq_true hpred.2⟩
        exact Option.some.inj h
  · intro t0 t1 ids hlt
    unfold PostgresCache.get
    have hall : ∀ e' ∈ PostgresCache.set st t0 key ids 0,
        ¬((e'.1 == key && decide (t1 < e'.2.2)) = true) := by
      intro e' he'
      unfold PostgresCache.set at he'
      by_cases hany : st.any (fun e => e.1 == key)
      · rw [if_pos hany] at he'
        obtain ⟨e, _, heq⟩ := List.mem_map.mp he'
        by_cases hk : e.1 == key
        · rw [if_pos hk] at heq
          intro hcontra
          have h2 := (Bool.and_eq_true _ _).mp hcontra |>.2
          rw [← heq] at h2
          have : t1 < t0 + 0 := of_decide_eq_true h2
          omega
        · rw [if_neg hk] at heq
          intro hcontra
          have h1 := (Bool.and_eq_true _ _).mp hcontra |>.1
          rw [← heq] at h1
          exact hk h1
      · rw [if_neg hany] at he'
        rcases List.mem_append.mp he' with hin | hin
        · intro hcontra
          have h1 := (Bool.and_eq_true _ _).mp hcontra |>.1
          exact hany (List.any_eq_true.mpr ⟨e', hin, h1⟩)
        · have he : e' = (key, ids, t0 + 0) := by simpa using hin
          intro hcontra
          have h2 := (Bool.and_eq_true _ _).mp hcontra |>.2
          rw [he] at h2
          have : t1 < t0 + 0 := of_decide_eq_true h2
          omega
    rw [List.find?_eq_none.mpr hall]

theorem cache_get_never_expired_witness :
    (PostgresCache.get [("k", ["x"], 5)] 3 "k" = some ["x"] →
      ∃ e ∈ [(("k" : String), (["x"] : List String), (5 : ℤ))],
        e.1 = "k" ∧ e.2.1 = ["x"] ∧ (3 : ℤ) < e.2.2) ∧
    ((7 : ℤ) < 8 ∧
      PostgresCache.get (PostgresCache.set [("k", ["x"], 5)] 7 "k" ["y"] 0) 8 "k" = none) :=
  ⟨(cache_get_never_expired [("k", ["x"], 5)] 3 "k").1 ["x"],
   ⟨by decide, (cache_get_never_expired [("k", ["x"], 5)] 3 "k").2 7 8 ["y"] (by decide)⟩⟩

/-- Claim C9: every backend-level error in the Redis cache variant degrades
to a miss / no-op instead of propagating: on a raised backend error, `get`
returns `none`, `set` completes normally, and `delete` returns `false`. -/
theorem redis_errors_degrade (b : RedisBackend)
    (hg : b.getReply = .err) (hs : b.setReply = .err) (hd : b.delReply = .err) :
    RedisCache.get b = none ∧ RedisCache.set b = () ∧ RedisCache.delete b = false := by
  refine ⟨?_, rfl, ?_⟩
  · unfold RedisCache.get; rw [hg]
  · unfold RedisCache.delete; rw [hd]

theorem redis_errors_degrade_witness :
    RedisCache.get { getReply := .err, setReply := .err, delReply := .err } = none ∧
    RedisCache.set { getReply := .err, setReply := .err, delReply := .err } = () ∧
    RedisCache.delete { getReply := .err, setReply := .err, delReply := .err } = false :=
  redis_errors_degrade _ rfl rfl rfl

theorem lookup_cons_eq_nat {β : Type} (e : ℕ × β) (l : List (ℕ × β)) (a : ℕ) :
    (e :: l).lookup a = if a == e.1 then some e.2 else l.lookup a := by
  cases e with
  | mk k v => by_cases h : a == k <;> simp [List.lookup, h]

theorem completeInto_cons (responses : List GroupResult) (j : ℕ) (rest : List ℕ) :
    completeInto responses (j :: rest) =
      match responses.get? j with
      | some r => (j, r) :: completeInto responses rest
      | none => completeInto responses rest := by
  unfold completeInto
  rw [List.filterMap_cons]
  cases responses.get? j <;> rfl

theorem lookup_completeInto (responses : List GroupResult) :
    ∀ (order : List ℕ) (i : ℕ), i ∈ order → i < responses.length →
      (completeInto responses order).lookup i = responses.get? i := by
  intro order
  induction order with
  | nil => intro i hi _; exact absurd hi (List.not_mem_nil i)
  | cons j rest ih =>
      intro i hi hlen
      rw [completeInto_cons]
      cases hj : responses.get? j with
      | none =>
          have hij : i ≠ j := by
            intro he
            subst he
            have := List.get?_eq_none.mp hj
            omega
          have hir : i ∈ rest := by
            rcases List.mem_cons.mp hi with h | h
            · exact absurd h hij
            · exact h
          exact ih i hir hlen
      | some r =>
          by_cases hij : i == j
          · have heq : i = j := eq_of_beq hij
            rw [lookup_cons_eq_nat, if_pos hij]
            subst heq
            exact hj.symm
          · rw [lookup_cons_eq_nat, if_neg hij]
            have hir : i ∈ rest := by
              rcases List.mem_cons.mp hi with h | h
              · exact absurd h (fun hh => hij (by simp [h]))
              · exact h
            exact ih i hir hlen

theorem filterMap_congr_mem {α β : Type} {f g : α → Option β} :
    ∀ {l : List α}, (∀ a ∈ l, f a = g a) → l.filterMap f = l.filterMap g := by
  intro l
  induction l with
  | nil => intro _; rfl
  | cons a l ih =>
      intro h
      rw [List.filterMap_cons, List.filterMap_cons, h a (List.mem_cons_self a l),
        ih (fun b hb => h b (List.mem_cons_of_mem a hb))]

theorem filterMap_get?_range {α : Type} : ∀ (l : List α),
    (List.range l.length).filterMap (fun i => l.get? i) = l := by
  intro l
  induction l with
  | nil => rfl
  | cons a l ih =>
      rw [List.length_cons, List.range_succ_eq_map, List.filterMap_cons]
      show a :: ((List.range l.length).map Nat.succ).filterMap (fun i => (a :: l).get? i) = a :: l
      rw [List.filterMap_map]
      show a :: (List.range l.length).filterMap (fun i => l.get? i) = a :: l
      rw [ih]

theorem gatherJoin_of_perm {responses : List GroupResult} {order : List ℕ}
    (h : order.Perm (List.range responses.length)) :
    gatherJoin responses order = responses := by
  unfold gatherJoin
  have hcongr : ∀ i ∈ List.range responses.length,
      (completeInto responses order).lookup i = responses.get? i := fun i hi =>
    lookup_completeInto responses order i (h.mem_iff.mpr hi) (List.mem_range.mp hi)
  rw [filterMap_congr_mem hcongr, filterMap_get?_range]

/-- Claim C10: the fan-out merge is deterministic given the per-group
outcomes — `asyncio.gather` joins the concurrently completing tasks back in
submission order, so for any two completion schedules (permutations of the
task indices) the whole of `search_nearby`'s output, records and metadata,
is identical; completion order never influences the result, even when a
duplicated provider id first appears in different groups. -/
theorem merge_schedule_independent (responses : List GroupResult) (max_results : ℕ)
    (order1 order2 : List ℕ)
    (h1 : order1.Perm (List.range responses.length))
    (h2 : order2.Perm (List.range responses.length)) :
    search_nearby (gatherJoin responses order1) max_results =
      search_nearby (gatherJoin responses order2) max_results := by
  rw [gatherJoin_of_perm h1, gatherJoin_of_perm h2]

theorem merge_schedule_independent_witness :
    ([1, 0] : List ℕ).Perm (List.range 2) ∧ ([0, 1] : List ℕ).Perm (List.range 2) ∧
    search_nearby
        (gatherJoin [GroupResult.ok [⟨some "a", 1⟩], GroupResult.ok [⟨some "a", 2⟩]] [1, 0]) 5 =
      search_nearby
        (gatherJoin [GroupResult.ok [⟨some "a", 1⟩], GroupResult.ok [⟨some "a", 2⟩]] [0, 1]) 5 :=
  ⟨by decide, by decide,
    merge_schedule_independent [GroupResult.ok [⟨some "a", 1⟩], GroupResult.ok [⟨some "a", 2⟩]]
      5 [1, 0] [0, 1] (by decide) (by decide)⟩

theorem fetchGroup_map_ok (l : List (List Place)) :
    (l.map GroupResult.ok).map fetch_group = l := by
  rw [List.map_map]
  have h : fetch_group ∘ GroupResult.ok = id := rfl
  rw [h, List.map_id]

theorem mergeGroups_cons_nil (xs ys : List (List Place)) :
    mergeGroups (xs ++ [] :: ys) = mergeGroups (xs ++ ys) := by
  unfold mergeGroups
  rw [List.foldl_append, List.foldl_append, List.foldl_cons]
  rfl

/-- Claim C2: when exactly one of the concurrently issued group requests
fails and the others succeed, the failing group contributes zero records and
does not fail the search: the result equals the merged, deduplicated union
of the successful groups (truncated as usual), with the raw/unique metadata
counts reduced to the successful groups only, while all groups still count
as attempted in `requests_made`. -/
theorem partial_group_failure (pre post : List (List Place)) (max_results : ℕ) :
    (search_nearby (pre.map GroupResult.ok ++ GroupResult.err :: post.map GroupResult.ok)
        max_results).1 =
      (search_nearby (pre.map GroupResult.ok ++ post.map GroupResult.ok) max_results).1 ∧
    (search_nearby (pre.map GroupResult.ok ++ GroupResult.err :: post.map GroupResult.ok)
        max_results).1 =
      ((mergeGroups (pre ++ post)).map Prod.snd).take max_results ∧
    (search_nearby (pre.map GroupResult.ok ++ GroupResult.err :: post.map GroupResult.ok)
        max_results).2.raw_places = rawCount (pre ++ post) ∧
    (search_nearby (pre.map GroupResult.ok ++ GroupResult.err :: post.map GroupResult.ok)
        max_results).2.unique_places = (mergeGroups (pre ++ post)).length ∧
    (search_nearby (pre.map GroupResult.ok ++ GroupResult.err :: post.map GroupResult.ok)
        max_results).2.truncated =
      (search_nearby (pre.map GroupResult.ok ++ post.map GroupResult.ok) max_results).2.truncated ∧
    (search_nearby (pre.map GroupResult.ok ++ GroupResult.err :: post.map GroupResult.ok)
        max_results).2.requests_made = pre.length + 1 + post.length := by
  have hmapped : (pre.map GroupResult.ok ++ GroupResult.err :: post.map GroupResult.ok).map
      fetch_group = pre ++ [] :: post := by
    rw [List.map_append, List.map_cons, fetchGroup_map_ok, fetchGroup_map_ok]
    rfl
  have hmapped2 : (pre.map GroupResult.ok ++ post.map GroupResult.ok).map fetch_group =
      pre ++ post := by
    rw [List.map_append, fetchGroup_map_ok, fetchGroup_map_ok]
  have hraw : rawCount (pre ++ [] :: post) = rawCount (pre ++ post) := by
    simp [rawCount]
  simp only [search_nearby, hmapped, hmapped2, mergeGroups_cons_nil, hraw]
  refine ⟨trivial, trivial, trivial, trivial, trivial, ?_⟩
  simp [List.length_append, List.length_map]
  omega

/-- Claim C7 counterexample: latitudes 0.0001 and 0.0009 agree in the
integer part and the first three decimal places (equal `milliFloor`) and
every other query field is identical, yet `generate_cache_key` produces
different keys (`"nearby:0.0:..."` vs `"nearby:0.001:..."`): rounding to 3
decimals consults the 4th decimal, so the claimed invariant fails. -/
theorem cache_key_fourth_decimal_counterexample :
    milliFloor (⟨1, 10000, by norm_num, by norm_num⟩ : ℚ) =
      milliFloor (⟨9, 10000, by norm_num, by norm_num⟩ : ℚ) ∧
    generate_cache_key (⟨1, 10000, by norm_num, by norm_num⟩ : ℚ) 0 1500 [] ≠
      generate_cache_key (⟨9, 10000, by norm_num, by norm_num⟩ : ℚ) 0 1500 [] := by
  constructor
  · decide
  · decide

theorem renderCoord_congr {a b : ℚ} (h : round3 a = round3 b)
    (hz : round3 a = 0 → (a.num < 0 ↔ b.num < 0)) :
    renderCoord a = renderCoord b := by
  unfold renderCoord
  rw [h]
  congr 1
  by_cases hzero : round3 b = 0
  · have hiff := hz (by rw [h]; exact hzero)
    by_cases hn : a.num < 0
    · rw [if_pos (Or.inr ⟨hzero, hn⟩), if_pos (Or.inr ⟨hzero, hiff.mp hn⟩)]
    · have hn2 : ¬ b.num < 0 := fun hh => hn (hiff.mpr hh)
      have hc1 : ¬(round3 b < 0 ∨ (round3 b = 0 ∧ a.num < 0)) := by
        rintro (hc | ⟨_, hc⟩)
        · rw [hzero] at hc
          exact absurd hc (lt_irrefl 0)
        · exact hn hc
      have hc2 : ¬(round3 b < 0 ∨ (round3 b = 0 ∧ b.num < 0)) := by
        rintro (hc | ⟨_, hc⟩)
        · rw [hzero] at hc
          exact absurd hc (lt_irrefl 0)
        · exact hn2 hc
      rw [if_neg hc1, if_neg hc2]
  · by_cases hlt : round3 b < 0
    · rw [if_pos (Or.inl hlt), if_pos (Or.inl hlt)]
    · have hc1 : ¬(round3 b < 0 ∨ (round3 b = 0 ∧ a.num < 0)) := by
        rintro (hc | ⟨hc, _⟩)
        · exact hlt hc
        · exact hzero hc
      have hc2 : ¬(round3 b < 0 ∨ (round3 b = 0 ∧ b.num < 0)) := by
        rintro (hc | ⟨hc, _⟩)
        · exact hlt hc
        · exact hzero hc
      rw [if_neg hc1, if_neg hc2]

/-- Claim C7 (amended): two GeoQueries whose latitudes and longitudes round
to the same 3-decimal values (rather than merely agreeing up to the 3rd
decimal) — where a coordinate rounding to zero keeps the sign of its input,
since Python renders the signed zero `-0.0` as `"-0.0"` — with equal radius,
and whose category lists are equal up to ordering, produce the same cache
key. -/
theorem cache_key_normalization (lat1 lng1 lat2 lng2 : ℚ) (radius : ℤ) (ts1 ts2 : List String)
    (hlat : round3 lat1 = round3 lat2) (hlng : round3 lng1 = round3 lng2)
    (hlatz : round3 lat1 = 0 → (lat1.num < 0 ↔ lat2.num < 0))
    (hlngz : round3 lng1 = 0 → (lng1.num < 0 ↔ lng2.num < 0))
    (hts : ts1.Perm ts2) :
    generate_cache_key lat1 lng1 radius ts1 = generate_cache_key lat2 lng2 radius ts2 := by
  unfold generate_cache_key
  rw [renderCoord_congr hlat hlatz, renderCoord_congr hlng hlngz]
  have hsort : List.insertionSort (fun a b : String => a ≤ b) ts1 =
      List.insertionSort (fun a b : String => a ≤ b) ts2 :=
    List.eq_of_perm_of_sorted
      (((List.perm_insertionSort _ ts1).trans hts).trans (List.perm_insertionSort _ ts2).symm)
      (List.sorted_insertionSort _ ts1) (List.sorted_insertionSort _ ts2)
  rw [hsort]

theorem cache_key_normalization_witness :
    round3 (⟨-1, 2500, by norm_num, by norm_num⟩ : ℚ) =
      round3 (⟨-1, 5000, by norm_num, by norm_num⟩ : ℚ) ∧
    (round3 (⟨-1, 2500, by norm_num, by norm_num⟩ : ℚ) = 0 →
      ((⟨-1, 2500, by norm_num, by norm_num⟩ : ℚ).num < 0 ↔
       (⟨-1, 5000, by norm_num, by norm_num⟩ : ℚ).num < 0)) ∧
    (["cafe", "bar"] : List String).Perm ["bar", "cafe"] ∧
    generate_cache_key (⟨-1, 2500, by norm_num, by norm_num⟩ : ℚ) 0 1500 ["cafe", "bar"] =
      generate_cache_key (⟨-1, 5000, by norm_num, by norm_num⟩ : ℚ) 0 1500 ["bar", "cafe"] :=
  ⟨by decide, by decide, by decide,
    cache_key_normalization (⟨-1, 2500, by norm_num, by norm_num⟩ : ℚ) 0
      (⟨-1, 5000, by norm_num, by norm_num⟩ : ℚ) 0 1500 ["cafe", "bar"] ["bar", "cafe"]
      (by decide) rfl (by decide) (fun _ => Iff.rfl) (by decide)⟩

theorem mergeGroups_of_all_nil :
    ∀ (results : List (List Place)), (∀ g ∈ results, g = []) → mergeGroups results = [] := by
  intro results
  induction results with
  | nil => intro _; rfl
  | cons g rest ih =>
      intro h
      have hg : g = [] := h g (List.mem_cons_self g rest)
      subst hg
      show List.foldl (fun acc places => places.foldl insertPlace acc) [] rest = []
      exact ih (fun g2 hg2 => h g2 (List.mem_cons_of_mem _ hg2))

theorem search_nearby_all_err_empty {outcomes : List GroupResult} (m : ℕ)
    (h : ∀ o ∈ outcomes, o = GroupResult.err) :
    (search_nearby outcomes m).1 = [] := by
  have hall : ∀ g ∈ outcomes.map fetch_group, g = ([] : List Place) := by
    intro g hg
    obtain ⟨o, ho, rfl⟩ := List.mem_map.mp hg
    rw [h o ho]
    rfl
  simp only [search_nearby]
  rw [mergeGroups_of_all_nil _ hall]
  simp

theorem pg_get_none_mono {st : CacheState} {now t1 : ℤ} {key : String}
    (h : PostgresCache.get st now key = none) (hle : now ≤ t1) :
    PostgresCache.get st t1 key = none := by
  unfold PostgresCache.get at h ⊢
  cases hf : st.find? (fun e => e.1 == key && decide (now < e.2.2)) with
  | some e => rw [hf] at h; exact absurd h (by simp)
  | none =>
      have hall := List.find?_eq_none.mp hf
      have hall2 : ∀ e ∈ st, ¬((e.1 == key && decide (t1 < e.2.2)) = true) := by
        intro e he hcontra
        rw [Bool.and_eq_true] at hcontra
        refine hall e he ?_
        rw [Bool.and_eq_true]
        exact ⟨hcontra.1, decide_eq_true (lt_of_le_of_lt hle (of_decide_eq_true hcontra.2))⟩
      rw [List.find?_eq_none.mpr hall2]

theorem upsert_restaurants_of_ne_nil {rows : List RestaurantRow} (h : rows ≠ []) :
    upsert_restaurants false rows = .error () ∧ upsert_restaurants true rows = .ok rows := by
  have hbe : rows.isEmpty = false := by
    cases rows with
    | nil => exact absurd rfl h
    | cons a l => rfl
  constructor <;> · unfold upsert_restaurants; rw [hbe]; rfl

theorem miss_ok_response_not_cached {request : NearbySearchRequest} {cache : CacheState}
    {now ttl : ℤ} {store : List RestaurantRow} {fetch : FetchOutcome} {store_ok : Bool}
    (hmiss : PostgresCache.get cache now (request_cache_key request) = none)
    {resp : NearbySearchResponse}
    (h : (search_nearby_restaurants request false cache now ttl store fetch store_ok).response
      = .ok resp) : resp.cached = false := by
  cases fetch with
  | raises =>
      simp only [search_nearby_restaurants, Bool.false_eq_true, if_false, hmiss] at h
      exact absurd h (by simp)
  | groups outcomes =>
      simp only [search_nearby_restaurants, Bool.false_eq_true, if_false, hmiss] at h
      by_cases hemp : (search_nearby outcomes request.max_results).1.isEmpty = true
      · rw [if_pos hemp] at h
        have hr := Except.ok.inj h
        rw [← hr]
      · rw [if_neg hemp] at h
        cases hup : upsert_restaurants store_ok
            ((search_nearby outcomes request.max_results).1.map parse_google_place) with
        | error e => rw [hup] at h; exact absurd h (by simp)
        | ok restaurants =>
            rw [hup] at h
            have hr := Except.ok.inj h
            rw [← hr]

/-- Claim C1 counterexample: a request in which every one of the (two)
concurrently issued group requests fails does NOT fail with the
provider-unavailable condition — each group failure is absorbed inside
`fetch_group`, the aggregate fetch returns an empty success, and the caller
receives a normal empty `cached = false` response. -/
theorem all_groups_fail_counterexample :
    (∀ o ∈ [GroupResult.err, GroupResult.err], o = GroupResult.err) ∧
    (search_nearby_restaurants
        { lat := 0, lng := 0, radius := 1500, included_types := none, max_results := 300 }
        false [] 0 900 [] (.groups [GroupResult.err, GroupResult.err]) true).response ≠
      .error .providerUnavailable ∧
    (search_nearby_restaurants
        { lat := 0, lng := 0, radius := 1500, included_types := none, max_results := 300 }
        false [] 0 900 [] (.groups [GroupResult.err, GroupResult.err]) true).response =
      .ok { restaurants := [], count := 0, cached := false,
            cache_key := "nearby:0.0:0.0:1500:",
            meta := some { requests_made := 2, max_requests := 2, raw_places := 0,
                           unique_places := 0, truncated := false } } :=
  ⟨by decide, by decide, by decide⟩

/-- Claim C1 (amended): on a cache miss, when the provider fetch operation
itself raises, the request fails with the provider-unavailable (HTTP 503)
condition and neither a cache write nor an upsert occurs; when instead every
group request fails individually, each failure is absorbed by `fetch_group`,
the aggregate fetch returns an empty success, and the caller receives a
normal empty response (`cached = false`) — likewise with no cache write and
no upsert. -/
theorem provider_failure_orchestration (request : NearbySearchRequest)
    (cache : CacheState) (now ttl : ℤ) (store : List RestaurantRow) (store_ok : Bool)
    (hmiss : PostgresCache.get cache now (request_cache_key request) = none) :
    (search_nearby_restaurants request false cache now ttl store .raises store_ok =
      { response := .error .providerUnavailable, cacheAfter := cache,
        cacheWrites := [], upsertBatches := [] }) ∧
    (∀ outcomes, (∀ o ∈ outcomes, o = GroupResult.err) →
      search_nearby_restaurants request false cache now ttl store (.groups outcomes) store_ok =
        { response := .ok { restaurants := [], count := 0, cached := false,
                            cache_key := request_cache_key request,
                            meta := some (search_nearby outcomes request.max_results).2 },
          cacheAfter := cache, cacheWrites := [], upsertBatches := [] }) := by
  constructor
  · simp only [search_nearby_restaurants, Bool.false_eq_true, if_false, hmiss]
  · intro outcomes hall
    have hemp : (search_nearby outcomes request.max_results).1.isEmpty = true := by
      rw [search_nearby_all_err_empty _ hall]
      rfl
    simp only [search_nearby_restaurants, Bool.false_eq_true, if_false, hmiss, hemp, if_true]

theorem provider_failure_orchestration_witness :
    PostgresCache.get [] 0 (request_cache_key
      { lat := 0, lng := 0, radius := 1500, included_types := none, max_results := 300 }) =
        none ∧
    search_nearby_restaurants
        { lat := 0, lng := 0, radius := 1500, included_types := none, max_results := 300 }
        false [] 0 900 [] .raises true =
      { response := .error .providerUnavailable, cacheAfter := [],
        cacheWrites := [], upsertBatches := [] } :=
  ⟨rfl, (provider_failure_orchestration
    { lat := 0, lng := 0, radius := 1500, included_types := none, max_results := 300 }
    [] 0 900 [] true rfl).1⟩

/-- Claim C5: a provider fetch that succeeds with zero records after dedup
returns an empty result set (`cached = false`) together with the fetch
metadata, performs no cache write and no upsert, and leaves the cache state
untouched — so at any later time the same key still misses and a second
identical request again takes the provider path (every successful response
it can produce has `cached = false`). -/
theorem empty_result_not_cached (request : NearbySearchRequest) (cache : CacheState)
    (now t1 ttl : ℤ) (store : List RestaurantRow) (outcomes : List GroupResult)
    (store_ok : Bool)
    (hmiss : PostgresCache.get cache now (request_cache_key request) = none)
    (hempty : (search_nearby outcomes request.max_results).1 = [])
    (hle : now ≤ t1) :
    (search_nearby_restaurants request false cache now ttl store (.groups outcomes) store_ok =
      { response := .ok { restaurants := [], count := 0, cached := false,
                          cache_key := request_cache_key request,
                          meta := some (search_nearby outcomes request.max_results).2 },
        cacheAfter := cache, cacheWrites := [], upsertBatches := [] }) ∧
    PostgresCache.get cache t1 (request_cache_key request) = none ∧
    (∀ (store2 : List RestaurantRow) (fetch2 : FetchOutcome) (ok2 : Bool) (ttl2 : ℤ)
        (resp : NearbySearchResponse),
      (search_nearby_restaurants request false cache t1 ttl2 store2 fetch2 ok2).response =
        .ok resp → resp.cached = false) := by
  have hemp : (search_nearby outcomes request.max_results).1.isEmpty = true := by
    rw [hempty]
    rfl
  have hmiss1 : PostgresCache.get cache t1 (request_cache_key request) = none :=
    pg_get_none_mono hmiss hle
  refine ⟨?_, hmiss1, ?_⟩
  · simp only [search_nearby_restaurants, Bool.false_eq_true, if_false, hmiss, hemp, if_true]
  · intro store2 fetch2 ok2 ttl2 resp h
    exact miss_ok_response_not_cached hmiss1 h

theorem empty_result_not_cached_witness :
    PostgresCache.get [] 0 (request_cache_key
      { lat := 0, lng := 0, radius := 1500, included_types := none, max_results := 300 }) =
        none ∧
    (search_nearby [GroupResult.ok []] 300).1 = [] ∧ (0 : ℤ) ≤ 1 ∧
    ((search_nearby_restaurants
        { lat := 0, lng := 0, radius := 1500, included_types := none, max_results := 300 }
        false [] 0 900 [] (.groups [GroupResult.ok []]) true =
      { response := .ok { restaurants := [], count := 0, cached := false,
                          cache_key := request_cache_key
                            { lat := 0, lng := 0, radius := 1500, included_types := none,
                              max_results := 300 },
                          meta := some (search_nearby [GroupResult.ok []] 300).2 },
        cacheAfter := [], cacheWrites := [], upsertBatches := [] }) ∧
    PostgresCache.get [] 1 (request_cache_key
      { lat := 0, lng := 0, radius := 1500, included_types := none, max_results := 300 }) =
        none ∧
    (∀ (store2 : List RestaurantRow) (fetch2 : FetchOutcome) (ok2 : Bool) (ttl2 : ℤ)
        (resp : NearbySearchResponse),
      (search_nearby_restaurants
          { lat := 0, lng := 0, radius := 1500, included_types := none, max_results := 300 }
          false [] 1 ttl2 store2 fetch2 ok2).response = .ok resp → resp.cached = false)) :=
  ⟨rfl, by decide, by decide,
    empty_result_not_cached
      { lat := 0, lng := 0, radius := 1500, included_types := none, max_results := 300 }
      [] 0 1 900 [] [GroupResult.ok []] true rfl (by decide) (by decide)⟩

/-- Claim C6: when the batch upsert fails, the whole request fails with the
storage-error condition — distinct from the provider-unavailable condition —
no cache write occurs and the cache state is unchanged; the identical retry
with a recovered store succeeds normally, upserting the batch and writing
the cache. -/
theorem upsert_failure_storage_error (request : NearbySearchRequest) (cache : CacheState)
    (now ttl : ℤ) (store : List RestaurantRow) (outcomes : List GroupResult)
    (hmiss : PostgresCache.get cache now (request_cache_key request) = none)
    (hne : (search_nearby outcomes request.max_results).1 ≠ []) :
    (search_nearby_restaurants request false cache now ttl store (.groups outcomes) false =
      { response := .error .storageError, cacheAfter := cache, cacheWrites := [],
        upsertBatches :=
          [(search_nearby outcomes request.max_results).1.map parse_google_place] }) ∧
    ApiError.storageError ≠ ApiError.providerUnavailable ∧
    (search_nearby_restaurants request false cache now ttl store (.groups outcomes) true =
      { response := .ok
          { restaurants := (search_nearby outcomes request.max_results).1.map parse_google_place,
            count := ((search_nearby outcomes request.max_results).1.map parse_google_place).length,
            cached := false, cache_key := request_cache_key request,
            meta := some (search_nearby outcomes request.max_results).2 },
        cacheAfter := PostgresCache.set cache now (request_cache_key request)
          (((search_nearby outcomes request.max_results).1.map parse_google_place).map
            (fun r => r.google_place_id)) ttl,
        cacheWrites := [(request_cache_key request,
          ((search_nearby outcomes request.max_results).1.map parse_google_place).map
            (fun r => r.google_place_id))],
        upsertBatches :=
          [(search_nearby outcomes request.max_results).1.map parse_google_place] }) := by
  have hrows : (search_nearby outcomes request.max_results).1.map parse_google_place ≠ [] := by
    intro hcon
    exact hne (List.map_eq_nil_iff.mp hcon)
  obtain ⟨hupf, hupt⟩ := upsert_restaurants_of_ne_nil hrows
  have hbe : (search_nearby outcomes request.max_results).1.isEmpty = false := by
    cases hcase : (search_nearby outcomes request.max_results).1 with
    | nil => exact absurd hcase hne
    | cons a l => rfl
  refine ⟨?_, by decide, ?_⟩
  · simp only [search_nearby_restaurants, Bool.false_eq_true, if_false, hmiss, hbe, hupf]
  · simp only [search_nearby_restaurants, Bool.false_eq_true, if_false, hmiss, hbe, hupt]

theorem upsert_failure_storage_error_witness :
    PostgresCache.get [] 0 (request_cache_key
      { lat := 0, lng := 0, radius := 1500, included_types := none, max_results := 300 }) =
        none ∧
    (search_nearby [GroupResult.ok [⟨some "a", 1⟩]] 300).1 ≠ [] ∧
    (search_nearby_restaurants
        { lat := 0, lng := 0, radius := 1500, included_types := none, max_results := 300 }
        false [] 0 900 [] (.groups [GroupResult.ok [⟨some "a", 1⟩]]) false =
      { response := .error .storageError, cacheAfter := [], cacheWrites := [],
        upsertBatches :=
          [(search_nearby [GroupResult.ok [⟨some "a", 1⟩]] 300).1.map parse_google_place] }) :=
  ⟨rfl, by decide,
    (upsert_failure_storage_error
      { lat := 0, lng := 0, radius := 1500, included_types := none, max_results := 300 }
      [] 0 900 [] [GroupResult.ok [⟨some "a", 1⟩]] rfl (by decide)).1⟩
